import Mathlib

/-!
Verification development for the NOAA PSL ASCII parsers of `act/io/noaapsl.py`
(wind-profiler, wind-profiler/RASS temperature, parsivel and FMCW radar moment
files).  The Python code is shallowly embedded: lines and tokens are `String`s,
numeric cells are `ℚ`, `NaN` substitution is `Option ℚ`, and fallible code
returns `Except String _`.  Python list/string helpers (`str.split`,
`filter(None, ...)`, `list.count`, `list.remove`, slicing) are re-implemented
as executable Lean functions so that every parser can be evaluated on concrete
inputs by the kernel.
-/

deriving instance DecidableEq for Except

/-- Except-bind written out explicitly, mirroring Python exception propagation:
an exception in an earlier statement aborts the whole computation. -/
def bindE {α β : Type} (x : Except String α) (f : α → Except String β) : Except String β :=
  match x with
  | Except.error e => Except.error e
  | Except.ok a => f a

/-- Monadic map over a list for `Option`, mirroring `numpy.astype` casts of a
token array: the whole cast fails if any single token fails to convert. -/
def mapMO {α β : Type} (f : α → Option β) : List α → Option (List β)
  | [] => some []
  | a :: as =>
    match f a with
    | none => none
    | some b =>
      match mapMO f as with
      | none => none
      | some bs => some (b :: bs)

/-- Monadic map over a list for `Except`, mirroring a Python loop that applies
a fallible parse to every element and aborts at the first exception. -/
def mapME {α β : Type} (f : α → Except String β) : List α → Except String (List β)
  | [] => Except.ok []
  | a :: as =>
    match f a with
    | Except.error e => Except.error e
    | Except.ok b =>
      match mapME f as with
      | Except.error e => Except.error e
      | Except.ok bs => Except.ok (b :: bs)

/-- Digit run check used by the numeric-token parsers. -/
def isDigits (l : List Char) : Bool :=
  !l.isEmpty && l.all Char.isDigit

/-- Value of a run of decimal digit characters. -/
def natOfDigits (l : List Char) : ℕ :=
  l.foldl (fun a c => a * 10 + (c.toNat - 48)) 0

/-- Leading/trailing whitespace strip, as Python `int`/`float` apply to their
string argument. -/
def pyStrip (s : String) : String :=
  String.mk (((s.data.dropWhile Char.isWhitespace).reverse.dropWhile Char.isWhitespace).reverse)

/-- Python `int(s)` (also `numpy` string-to-int casts): an optional sign
followed by decimal digits; anything else raises `ValueError`, modelled as
`none`. -/
def pyInt (s : String) : Option ℤ :=
  let t := pyStrip s
  if t.data.headD ' ' = '-' then
    match (String.mk (t.data.drop 1)).data with
    | ds => if isDigits ds then some (-(natOfDigits ds : ℤ)) else none
  else if t.data.headD ' ' = '+' then
    (if isDigits (t.data.drop 1) then some ((natOfDigits (t.data.drop 1) : ℤ)) else none)
  else if isDigits t.data then some ((natOfDigits t.data : ℤ)) else none

/-- Unsigned part of Python `float(s)`: digits, optionally with a decimal
point (`"3"`, `"3.5"`, `".5"`, `"5."`), with value
`intpart + fracpart / 10 ^ fraclen`.  Exponents do not occur in the PSL files
and are not modelled. -/
def pyFloatCore (s : String) : Option ℚ :=
  match s.data.splitOn '.' with
  | [a] => if isDigits a then some (mkRat ((natOfDigits a : ℕ) : ℤ) 1) else none
  | [a, b] =>
    if (isDigits a || a.isEmpty) && (isDigits b || b.isEmpty) && !(a.isEmpty && b.isEmpty) then
      some (mkRat (((natOfDigits a * 10 ^ b.length + natOfDigits b : ℕ) : ℤ)) (10 ^ b.length))
    else none
  | _ => none

/-- Python `float(s)` (also `numpy` string-to-float casts), modelled as
`none` on `ValueError`. -/
def pyFloat (s : String) : Option ℚ :=
  let t := pyStrip s
  if t.data.headD ' ' = '-' then
    (pyFloatCore (String.mk (t.data.drop 1))).map (fun q => mkRat (-q.num) q.den)
  else if t.data.headD ' ' = '+' then pyFloatCore (String.mk (t.data.drop 1))
  else pyFloatCore t

/-- Python `int(q)` on a float: truncation toward zero. -/
def pyTrunc (q : ℚ) : ℤ :=
  if q < 0 then -(Int.floor (-q)) else Int.floor q

/-- Character-level worker for `splitChar`. -/
def splitCharGo (c : Char) : List Char → List Char → List String
  | [], cur => [String.mk cur.reverse]
  | a :: rest, cur =>
    if a = c then String.mk cur.reverse :: splitCharGo c rest []
    else splitCharGo c rest (a :: cur)

/-- Python `s.split(c)` for a single-character separator: every occurrence of
the separator produces a boundary, so consecutive separators yield empty
fields. -/
def splitChar (c : Char) (s : String) : List String :=
  splitCharGo c s.data []

/-- Character-level worker for `pySplitWs`. -/
def splitWsGo : List Char → List Char → List String
  | [], cur => [String.mk cur.reverse]
  | a :: rest, cur =>
    if a.isWhitespace then String.mk cur.reverse :: splitWsGo rest []
    else splitWsGo rest (a :: cur)

/-- Python `s.split()` with no argument: split on whitespace runs and drop
empty fields. -/
def pySplitWs (s : String) : List String :=
  (splitWsGo s.data []).filter (fun t => t != "")

/-- Fueled worker for `splitMin2`: a run of two or more whitespace characters
is one delimiter.  The fuel starts at the string length plus one; every
recursive call consumes at least one character, so the fuel never runs out. -/
def splitMin2Go : ℕ → List Char → List Char → List (List Char)
  | 0, rest, cur => [cur.reverse ++ rest]
  | _ + 1, [], cur => [cur.reverse]
  | fuel + 1, c1 :: rest, cur =>
    if c1.isWhitespace then
      match rest with
      | [] => [(c1 :: cur).reverse]
      | c2 :: rest2 =>
        if c2.isWhitespace then
          cur.reverse :: splitMin2Go fuel (rest2.dropWhile Char.isWhitespace) []
        else splitMin2Go fuel rest (c1 :: cur)
    else splitMin2Go fuel rest (c1 :: cur)

/-- Python `re.split(r'\s\x7b2,\x7d', s)`: split on each maximal run of at
least two whitespace characters. -/
def splitMin2 (s : String) : List String :=
  (splitMin2Go (s.length + 1) s.data []).map String.mk

/-- Fueled worker for `splitExact2`: each occurrence of exactly two
consecutive characters satisfying `p` is a delimiter (no run merging). -/
def splitExact2Go (p : Char → Bool) : ℕ → List Char → List Char → List (List Char)
  | 0, rest, cur => [cur.reverse ++ rest]
  | _ + 1, [], cur => [cur.reverse]
  | fuel + 1, c1 :: rest, cur =>
    if p c1 then
      match rest with
      | [] => [(c1 :: cur).reverse]
      | c2 :: rest2 =>
        if p c2 then cur.reverse :: splitExact2Go p fuel rest2 []
        else splitExact2Go p fuel rest (c1 :: cur)
    else splitExact2Go p fuel rest (c1 :: cur)

/-- Python `s.split('  ')` / `re.split(r'\s\x7b2\x7d', s)`: split on each
(leftmost, non-overlapping) occurrence of two consecutive matching
characters. -/
def splitExact2 (p : Char → Bool) (s : String) : List String :=
  (splitExact2Go p (s.length + 1) s.data []).map String.mk

/-- Fueled worker for `splitExact3`. -/
def splitExact3Go (p : Char → Bool) : ℕ → List Char → List Char → List (List Char)
  | 0, rest, cur => [cur.reverse ++ rest]
  | _ + 1, [], cur => [cur.reverse]
  | fuel + 1, c1 :: rest, cur =>
    match rest with
    | c2 :: c3 :: rest3 =>
      if p c1 && p c2 && p c3 then cur.reverse :: splitExact3Go p fuel rest3 []
      else splitExact3Go p fuel rest (c1 :: cur)
    | _ => [(cur.reverse ++ (c1 :: rest))]

/-- Python `re.split(r'\s\x7b3\x7d', s)`: split on each occurrence of three
consecutive matching characters. -/
def splitExact3 (p : Char → Bool) (s : String) : List String :=
  (splitExact3Go p (s.length + 1) s.data []).map String.mk

/-- The module's `filter_list` helper: `np.array(list(filter(None, l)))`,
which removes empty strings. -/
def filter_list (l : List String) : List String :=
  l.filter (fun x => x != "")

/-- Gregorian leap-year rule, as Python `datetime` uses. -/
def isLeap (y : ℤ) : Bool :=
  (y % 4 == 0 && y % 100 != 0) || y % 400 == 0

/-- Days in a Gregorian year. -/
def daysInYear (y : ℤ) : ℤ :=
  if isLeap y then 366 else 365

/-- Days in a month of the proleptic Gregorian calendar. -/
def daysInMonth (y mo : ℤ) : ℤ :=
  if mo = 2 then (if isLeap y then 29 else 28)
  else if mo = 4 ∨ mo = 6 ∨ mo = 9 ∨ mo = 11 then 30
  else 31

/-- A validated `datetime.datetime` value (time fields only, no microsecond,
naive timezone, as the parsers build them). -/
structure DateTime where
  year : ℤ
  month : ℤ
  day : ℤ
  hour : ℤ
  minute : ℤ
  second : ℤ
deriving Repr, DecidableEq

/-- The `datetime.datetime(y, mo, d, h, mi, s)` constructor including its
range validation; out-of-range fields raise `ValueError`. -/
def mkDatetime (y mo d h mi s : ℤ) : Except String DateTime :=
  if 1 ≤ y ∧ y ≤ 9999 ∧ 1 ≤ mo ∧ mo ≤ 12 ∧ 1 ≤ d ∧ d ≤ daysInMonth y mo ∧
      0 ≤ h ∧ h < 24 ∧ 0 ≤ mi ∧ mi < 60 ∧ 0 ≤ s ∧ s < 60 then
    Except.ok ⟨y, mo, d, h, mi, s⟩
  else Except.error "date value out of range"

/-- Number of days from 2000-01-01 to `y`-01-01, for `y` at or after 2000
(the only case the two-digit-year parsers can produce). -/
def daysFrom2000 (y : ℤ) : ℤ :=
  ((List.range (y - 2000).toNat).map (fun k => daysInYear (2000 + (k : ℤ)))).sum

/-- Seconds from 2000-01-01 00:00:00 to `y`-01-01 `h`:`mi`:`s`, the timestamp
arithmetic `datetime(y, 1, 1, h, mi, s)` denotes for `y ≥ 2000`. -/
def jan1Seconds (y h mi s : ℤ) : ℤ :=
  daysFrom2000 y * 86400 + h * 3600 + mi * 60 + s

/-! ## FMCW radar moment parser (`read_psl_radar_fmcw_moment`) -/

/-- Heterogeneous value as stored into the radar data dictionary: the source
appends raw strings for most header fields and floats only on its
lat/lon-division branch. -/
inductive PslVal where
  | str (s : String)
  | num (q : ℚ)
deriving Repr, DecidableEq

/-- The five file-level header fields of a radar file. -/
def h1_names : List String := ["site", "lat", "lon", "alt", "freq"]

/-- Worker for `parse_radar_header1`: `ctr` counts the fields already filled;
a sixth non-empty token would index past `h1_names` and raise `IndexError`. -/
def parseRadarHeader1Go : List String → List PslVal → Except String (List PslVal)
  | [], acc => Except.ok acc.reverse
  | d :: rest, acc =>
    if d = "" then parseRadarHeader1Go rest acc
    else if acc.length ≥ h1_names.length then Except.error "list index out of range"
    else if d = "lat" ∨ d = "lon" then
      match pyFloat d with
      | none => Except.error "could not convert string to float"
      | some q => parseRadarHeader1Go rest (PslVal.num (q / 100) :: acc)
    else parseRadarHeader1Go rest (PslVal.str d :: acc)

/-- Embedding of the radar file-level header scan (`noaapsl.py` lines
536-544): the first line is split on single spaces, empty tokens are skipped,
and each value is appended raw unless the token itself equals the string
`"lat"` or `"lon"`, in which case `float(d)/100` is appended. -/
def parse_radar_header1 (line : String) : Except String (List PslVal) :=
  parseRadarHeader1Go (splitChar ' ' line) []

/-- Offset `index1` of the radar record scan (`noaapsl.py` line 574):
`index1 = ct * int(n_gates)` with `n_gates` the gate count declared by the
previous record. -/
def radar_index1 (ct gates : ℕ) : ℕ :=
  ct * gates

/-- Offset `index2` of the radar record scan (`noaapsl.py` line 575):
`index2 = index1 + int(n_gates) + 2 * ct + 4`.  Record `ct`'s second header
line is read at line `index2 - 1` and its third header line at `index2`. -/
def radar_index2 (ct gates : ℕ) : ℕ :=
  radar_index1 ct gates + gates + 2 * ct + 4

/-- The offset formula as the specification words it:
`offset = N * (gates - 1) + 2 * N + 4`. -/
def radar_offset_specified (n gates : ℕ) : ℕ :=
  n * (gates - 1) + 2 * n + 4

/-- Embedding of the radar per-record timestamp (`noaapsl.py` lines 601-606):
`datetime(int('20' + year), 1, 1, int(hour), int(minute), int(second)) +
timedelta(days=int(day_of_year))`, on the string-valued header fields, as
seconds since 2000-01-01 00:00:00.  `none` models the `ValueError` of a
failed `int()` and the range validation of the `datetime` constructor. -/
def radar_record_time (year doy hour minute second : String) : Option ℤ :=
  match pyInt ("20" ++ year), pyInt doy, pyInt hour, pyInt minute, pyInt second with
  | some y, some d, some h, some mi, some s =>
    if 2000 ≤ y ∧ 0 ≤ d ∧ 0 ≤ h ∧ h < 24 ∧ 0 ≤ mi ∧ mi < 60 ∧ 0 ≤ s ∧ s < 60 then
      some (jan1Seconds y h mi s + d * 86400)
    else none
  | _, _, _, _, _ => none

/-- The radar timestamp as the specification words it: (January 1 of year
2000+Y) plus (day-of-year − 1) days plus H hours, Min minutes and S seconds,
as seconds since 2000-01-01 00:00:00. -/
def radar_time_specified (y doy h mi s : ℤ) : ℤ :=
  jan1Seconds (2000 + y) h mi s + (doy - 1) * 86400

/-- One record's worth of column data appended by a successful iteration of
the radar scan loop (the six `delim_whitespace` channels of the record's
table, plus its timestamp field). -/
structure RadarRecord where
  radial_velocity : List ℚ
  snr : List ℚ
  signal_power : List ℚ
  spectral_width : List ℚ
  noise_amplitude : List ℚ
  qc_variable : List ℚ
deriving Repr, DecidableEq

/-- Outcome of one iteration of the radar `while` loop's `try` block: either
the whole body succeeds and appends one record, or some statement raises.
`empty_read` is true exactly when the exception is a
`pandas.errors.EmptyDataError` (an empty read at end of file). -/
inductive RadarAttempt where
  | ok (r : RadarRecord)
  | err (empty_read : Bool)
deriving Repr, DecidableEq

/-- Embedding of the radar scan loop (`noaapsl.py` lines 546-620).  The
attempt list gives the outcome of each successive iteration of the `try`
block; reading past its end models the `EmptyDataError` a read past end of
file raises.  `error_ct` is incremented on every caught exception and is
never reset; the loop terminates when an exception is an `EmptyDataError` or
when `error_ct > 1` already held as the exception was caught. -/
def radarScanGo : List RadarAttempt → ℕ → List RadarRecord
  | [], _ => []
  | RadarAttempt.ok r :: rest, error_ct => r :: radarScanGo rest error_ct
  | RadarAttempt.err empty :: rest, error_ct =>
    if empty || decide (error_ct > 1) then [] else radarScanGo rest (error_ct + 1)

/-- The radar per-file scan: run the loop with `error_ct = 0` and collect the
records appended before termination.  No exception ever escapes: the function
is total and returns the list of successfully parsed records. -/
def radarScan (attempts : List RadarAttempt) : List RadarRecord :=
  radarScanGo attempts 0

/-- The scan-termination policy as the specification words it: the strike
counter is reset by every successful record parse, and the scan stops at an
empty read or at the second consecutive exception. -/
def radarScanSpecifiedGo : List RadarAttempt → ℕ → List RadarRecord
  | [], _ => []
  | RadarAttempt.ok r :: rest, _ => r :: radarScanSpecifiedGo rest 0
  | RadarAttempt.err empty :: rest, strikes =>
    if empty || decide (strikes ≥ 1) then [] else radarScanSpecifiedGo rest (strikes + 1)

/-- The per-file scan under the specification's termination policy. -/
def radarScanSpecified (attempts : List RadarAttempt) : List RadarRecord :=
  radarScanSpecifiedGo attempts 0

/-! ## Wind profiler parser (`read_psl_wind_profiler`) -/

/-- The beam-indexed column names subject to duplicate disambiguation. -/
def beam_vars : List String := ["RAD", "CNT", "SNR", "QC"]

/-- One iteration of the duplicate-name loop (`noaapsl.py` lines 49-56): at
position `i`, if the current entry is a beam variable, rename it according to
how many entries of the *current, already partially renamed* list still equal
it. -/
def renameStep (l : List String) (i : ℕ) : List String :=
  match l.get? i with
  | none => l
  | some c =>
    if c ∈ beam_vars then
      if 2 < l.count c then l.set i (c ++ "1")
      else if 1 < l.count c then l.set i (c ++ "2")
      else if 0 < l.count c then l.set i (c ++ "3")
      else l
    else l

/-- Fueled driver for the duplicate-name loop, processing indices
`i, i+1, ...`; the fuel is the list length, so every index is processed
exactly once, as `for i, c in enumerate(column_list)` does. -/
def renameGo : ℕ → ℕ → List String → List String
  | 0, _, l => l
  | fuel + 1, i, l => renameGo fuel (i + 1) (renameStep l i)

/-- Embedding of the duplicate-column-name disambiguation of
`read_psl_wind_profiler` (`noaapsl.py` lines 48-56). -/
def renameBeamCols (l : List String) : List String :=
  renameGo l.length 0 l

/-- Suffix chosen when `r` entries equal to the name remain at or after the
current position: `"1"` while more than two remain, `"2"` at two, `"3"` at
the last one. -/
def suffixFor (r : ℕ) : String :=
  if 2 < r then "1" else if r = 2 then "2" else "3"

/-- Closed-form description of the rename loop: position `i` holding a beam
variable `c` is renamed by the count of occurrences of `c` at or after `i`
in the original list, so the suffixes run *forward*: every occurrence up to
the third-from-last gets `"1"`, the second-from-last `"2"`, the last `"3"`. -/
def renameForward (l : List String) : List String :=
  (List.range l.length).map (fun i =>
    let c := l.getD i ""
    if c ∈ beam_vars then c ++ suffixFor ((l.drop i).count c) else c)

/-- Python list indexing `lines[i]`: `IndexError` past the end. -/
def lineAt (lines : List String) (i : ℕ) : Except String String :=
  match lines.get? i with
  | some s => Except.ok s
  | none => Except.error "list index out of range"

/-- The sentinel substitution `df.replace(999999.0, np.nan)` on one cell. -/
def replace999999 (q : ℚ) : Option ℚ :=
  if q = 999999 then none else some q

/-- The sentinel substitution applied to a whole numeric table
(`noaapsl.py` lines 87 and 265). -/
def sanitizeTable (t : List (List ℚ)) : List (List (Option ℚ)) :=
  t.map (fun r => r.map replace999999)

/-- One parsed wind-profiler block: its timestamp, its mode value, its
sentinel-substituted numeric table, and the height coordinate taken from the
table's `HT` column. -/
structure WpBlock where
  time : DateTime
  mode : ℤ
  cells : List (List (Option ℚ))
  heights : List (Option ℚ)
deriving Repr, DecidableEq

/-- A concatenated per-mode wind-profiler dataset: one time per block, the
height coordinate, and the per-block tables stacked along time. -/
structure WpData where
  times : List DateTime
  heights : List (Option ℚ)
  tables : List (List (List (Option ℚ)))
deriving Repr, DecidableEq

/-- Global attributes read from fixed lines relative to the first marker and
attached to both returned datasets. -/
structure WpAttrs where
  site_identifier : String
  data_type : String
  revision_number : String
  latitude : ℚ
  longitude : ℚ
  altitude : ℚ
  azimuth : List ℚ
  elevation : List ℚ
deriving Repr, DecidableEq

/-- Embedding of the wind-profiler date-line parse (`noaapsl.py` lines
66-77): split on single spaces, drop empty tokens, convert every token with
`int`, then build `datetime(2000 + f0, f1, f2, f3, f4, f5)`; fewer than six
tokens raises `IndexError`. -/
def parseWpDateLine (s : String) : Except String DateTime :=
  match mapMO pyInt (filter_list (splitChar ' ' s)) with
  | none => Except.error "invalid literal for int"
  | some ns =>
    match ns with
    | y :: mo :: d :: h :: mi :: sec :: _ => mkDatetime (2000 + y) mo d h mi sec
    | _ => Except.error "list index out of range"

/-- Embedding of the wind-profiler mode parse (`noaapsl.py` lines 79-80):
`int(mode_line.split(' ')[-1])`. -/
def parseWpMode (s : String) : Except String ℤ :=
  match (splitChar ' ' s).getLast? with
  | none => Except.error "list index out of range"
  | some t =>
    match pyInt t with
    | none => Except.error "invalid literal for int"
    | some m => Except.ok m

/-- The raw text rows of block `[start, nxt)`: Python slice
`lines[start + 10 : nxt - 1]`. -/
def wpTableLines (lines : List String) (start nxt : ℕ) : List String :=
  (lines.drop (start + 10)).take (nxt - 1 - (start + 10))

/-- One numeric row: split on runs of two or more whitespace characters and
convert every token with `float` (`np.array(..., dtype='float')`). -/
def parseWpRow (s : String) : Except String (List ℚ) :=
  match mapMO pyFloat (splitMin2 s) with
  | none => Except.error "could not convert string to float"
  | some r => Except.ok r

/-- The block's numeric table: every row parsed, and `np.array` requiring a
rectangular shape. -/
def parseWpTable (rows : List String) : Except String (List (List ℚ)) :=
  bindE (mapME parseWpRow rows) fun t =>
  if t.all (fun r => r.length = (t.headD []).length) then Except.ok t
  else Except.error "setting an array element with a sequence"

/-- `pd.DataFrame(array, columns=cols)` raises unless each row has exactly
one cell per column name. -/
def mkWpFrame (cols : List String) (t : List (List ℚ)) : Except String (List (List ℚ)) :=
  if t.all (fun r => r.length = cols.length) then Except.ok t
  else Except.error "shape of passed values does not match columns"

/-- Index of the first occurrence of a name in the column list. -/
def idxOfStr : List String → String → ℕ
  | [], _ => 0
  | a :: rest, s => if a = s then 0 else idxOfStr rest s + 1

/-- The `HT` column of the sanitized table, as `xr_add['HT'].values` reads
it after the sentinel substitution. -/
def htColumn (cols : List String) (cells : List (List (Option ℚ))) : List (Option ℚ) :=
  cells.map (fun r => r.getD (idxOfStr cols "HT") none)

/-- Embedding of one iteration of the wind-profiler block loop
(`noaapsl.py` lines 62-97): date line at `start + 3`, mode line at
`start + 7`, numeric rows in `[start + 10, nxt - 1)`, sentinel substitution,
and height coordinate from the `HT` column (`KeyError` when no `HT` column
exists). -/
def parseWpBlock (lines : List String) (cols : List String) (start nxt : ℕ) :
    Except String WpBlock :=
  bindE (lineAt lines (start + 3)) fun dline =>
  bindE (parseWpDateLine dline) fun time =>
  bindE (lineAt lines (start + 7)) fun mline =>
  bindE (parseWpMode mline) fun mode =>
  bindE (parseWpTable (wpTableLines lines start nxt)) fun t0 =>
  bindE (mkWpFrame cols t0) fun t =>
  if cols.contains "HT" then
    Except.ok { time := time, mode := mode, cells := sanitizeTable t,
                heights := htColumn cols (sanitizeTable t) }
  else Except.error "KeyError: HT"

/-- Marker line indices: `np.where(df[0] == df[0][0])` — every line equal to
the first line of the file. -/
def wpMarkers (lines : List String) : List ℕ :=
  (List.range lines.length).filter (fun i => lines.getD i "" == lines.getD 0 "")

/-- The renamed column list, read from line 9 of the file. -/
def wpColumns (lines : List String) : Except String (List String) :=
  bindE (lineAt lines 9) fun l9 =>
  Except.ok (renameBeamCols (pySplitWs l9))

/-- The index pairs the block loop iterates: `for i in range(len(idx) - 1)`,
block `i` spanning `[idx[i], idx[i+1])`. -/
def wpIndexPairs (idx : List ℕ) : List (ℕ × ℕ) :=
  (List.range (idx.length - 1)).map (fun i => (idx.getD i 0, idx.getD (i + 1) 0))

/-- All blocks parsed by the loop, in file order. -/
def wpParseBlocks (lines : List String) : Except String (List WpBlock) :=
  bindE (wpColumns lines) fun cols =>
  mapME (fun p => parseWpBlock lines cols p.1 p.2) (wpIndexPairs (wpMarkers lines))

/-- `xr.concat(blocks, 'time')`: raises `ValueError` on an empty list,
otherwise stacks the blocks along a new time dimension (height coordinate
taken from the first block). -/
def wpConcat (bs : List WpBlock) : Except String WpData :=
  match bs with
  | [] => Except.error "must supply at least one object to concatenate"
  | b :: _ =>
    Except.ok { times := bs.map (fun x => x.time), heights := b.heights,
                tables := bs.map (fun x => x.cells) }

/-- Python `list.remove(x)`: drop the first occurrence, `ValueError` if
absent. -/
def pyRemoveFirst (x : String) (l : List String) : Except String (List String) :=
  if l.contains x then Except.ok (l.erase x) else Except.error "list.remove(x): x not in list"

/-- Tokens converted with a `numpy` float cast. -/
def castFloats (toks : List String) : Except String (List ℚ) :=
  match mapMO pyFloat toks with
  | none => Except.error "could not convert string to float"
  | some qs => Except.ok qs

/-- Embedding of the global-attribute decoding of `read_psl_wind_profiler`
(`noaapsl.py` lines 102-150): site from the first marker line, data type and
revision from the next line, coordinates from the line after, azimuth and
elevation pairs from line `m0 + 8`. -/
def parseWpAttrs (lines : List String) (m0 : ℕ) : Except String WpAttrs :=
  bindE (lineAt lines m0) fun l0 =>
  bindE (lineAt lines (m0 + 1)) fun l1 =>
  bindE (match splitExact3 Char.isWhitespace l1 with
         | d0 :: d1 :: _ => Except.ok (pyStrip d0, pyStrip d1)
         | _ => Except.error "index out of range") fun dtrev =>
  bindE (lineAt lines (m0 + 2)) fun l2 =>
  bindE (pyRemoveFirst "" (splitMin2 l2)) fun cl =>
  bindE (castFloats cl) fun coords =>
  bindE (match coords with
         | la :: lo :: al :: _ => Except.ok (la, lo, al)
         | _ => Except.error "index out of range") fun lla =>
  bindE (lineAt lines (m0 + 8)) fun l8 =>
  bindE (pyRemoveFirst "" (splitMin2 l8)) fun ael =>
  bindE (mapME (fun e =>
         match pySplitWs e with
         | a :: b :: _ => Except.ok (a, b)
         | _ => Except.error "index out of range") ael) fun pairs =>
  bindE (castFloats (pairs.map Prod.fst)) fun az =>
  bindE (castFloats (pairs.map Prod.snd)) fun el =>
  Except.ok { site_identifier := pyStrip ((splitExact2 Char.isWhitespace l0).headD ""),
              data_type := dtrev.1, revision_number := dtrev.2,
              latitude := lla.1, longitude := lla.2.1, altitude := lla.2.2,
              azimuth := az, elevation := el }

/-- Embedding of `read_psl_wind_profiler` (`noaapsl.py` lines 15-156): parse
the first `len(markers) - 1` blocks, split them into low mode
(`mode < 1000`) and high mode, concatenate each list along time (raising on
an empty list), then decode the global attributes.  The `transpose` step
only reorders dimensions and is not modelled. -/
def read_psl_wind_profiler (lines : List String) :
    Except String ((WpData × WpAttrs) × (WpData × WpAttrs)) :=
  bindE (wpParseBlocks lines) fun bs =>
  bindE (wpConcat (bs.filter (fun b => decide (b.mode < 1000)))) fun dsLow =>
  bindE (wpConcat (bs.filter (fun b => !(decide (b.mode < 1000))))) fun dsHi =>
  bindE (parseWpAttrs lines ((wpMarkers lines).getD 0 0)) fun a =>
  Except.ok ((dsLow, a), (dsHi, a))

/-! ## Temperature (RASS) parser (`read_psl_wind_profiler_temperature`) -/

/-- Tokens cast with `astype(int)` and tuple-unpacked into exactly `k`
variables (`ValueError` on a bad token or on a wrong count). -/
def castIntsExactly (k : ℕ) (toks : List String) : Except String (List ℤ) :=
  match mapMO pyInt toks with
  | none => Except.error "invalid literal for int"
  | some ns => if ns.length = k then Except.ok ns else Except.error "cannot unpack"

/-- Tokens cast with `astype(float)` and tuple-unpacked into exactly `k`
variables. -/
def castFloatsExactly (k : ℕ) (toks : List String) : Except String (List ℚ) :=
  match mapMO pyFloat toks with
  | none => Except.error "could not convert string to float"
  | some qs => if qs.length = k then Except.ok qs else Except.error "cannot unpack"

/-- Embedding of `parse_date_line` (`noaapsl.py` lines 336-344): split on
single spaces, drop empty tokens, cast all with `astype(int)`, unpack into
exactly seven fields (year, month, day, hour, minute, second, UTC offset),
add 2000 to the year, and build the `datetime`; the UTC offset is parsed but
not applied. -/
def parse_date_line (s : String) : Except String DateTime :=
  bindE (castIntsExactly 7 (filter_list (splitChar ' ' s))) fun ns =>
  match ns with
  | [y, mo, d, h, mi, sec, _utc] => mkDatetime (y + 2000) mo d h mi sec
  | _ => Except.error "cannot unpack"

/-- A date line is malformed in the sense of the specification when a token
is not an integer literal or the token count is not seven. -/
def dateLineBad (s : String) : Bool :=
  match mapMO pyInt (filter_list (splitChar ' ' s)) with
  | none => true
  | some ns => ns.length != 7

/-- One parsed temperature section. -/
structure TempDS where
  site : String
  data_type : String
  revision : String
  latitude : ℚ
  longitude : ℚ
  elevation : ℚ
  time : DateTime
  consensus_average_time : ℤ
  number_of_beams : ℤ
  number_of_range_gates : ℤ
  number_of_gates : ℤ
  table : List (List (Option ℚ))
deriving Repr, DecidableEq

/-- Embedding of `_parse_psl_temperature_lines` (`noaapsl.py` lines
198-326).  `secLines` are the section's text lines; `table` stands for the
numeric rows `pd.read_csv(filepath, skiprows=line_offset + 10,
delim_whitespace=True)` reads for this section, supplied already cast to
floats.  The table is truncated to the declared gate count and
sentinel-substituted; the per-column renames and attribute strings do not
affect any claim and are kept as data fields only. -/
def parseTempSection (secLines : List String) (table : List (List ℚ)) :
    Except String TempDS :=
  bindE (lineAt secLines 0) fun l0 =>
  bindE (lineAt secLines 1) fun l1 =>
  bindE (match filter_list (splitChar ' ' l1) with
         | [datatype, _x, version] => Except.ok (datatype, version)
         | _ => Except.error "cannot unpack") fun dtv =>
  bindE (lineAt secLines 2) fun l2 =>
  bindE (castFloatsExactly 3 (filter_list (splitExact2 (fun c => c = ' ') l2))) fun lla =>
  bindE (lineAt secLines 3) fun l3 =>
  bindE (parse_date_line l3) fun time =>
  bindE (lineAt secLines 4) fun l4 =>
  bindE (castIntsExactly 3 (filter_list (splitExact2 (fun c => c = ' ') l4))) fun cbr =>
  bindE (lineAt secLines 6) fun l6 =>
  bindE (castIntsExactly 4 (filter_list (splitChar ' ' l6))) fun _cips =>
  bindE (lineAt secLines 7) fun l7 =>
  bindE (castFloatsExactly 4 (filter_list (splitChar ' ' l7))) fun fdgs =>
  bindE (lineAt secLines 8) fun l8 =>
  bindE (castFloatsExactly 2 (filter_list (splitChar ' ' l8))) fun _azel =>
  let gates := pyTrunc (fdgs.getD 2 0)
  Except.ok { site := l0, data_type := dtv.1, revision := dtv.2,
              latitude := lla.getD 0 0, longitude := lla.getD 1 0,
              elevation := lla.getD 2 0, time := time,
              consensus_average_time := cbr.getD 0 0,
              number_of_beams := cbr.getD 1 0,
              number_of_range_gates := cbr.getD 2 0,
              number_of_gates := gates,
              table := sanitizeTable (table.take gates.toNat) }

/-- Worker for `splitRunsDollar`: group consecutive lines by whether they
equal the separator `"$"`, as `itertools.groupby(lines, key='$'.__ne__)`
does. -/
def splitRunsDollarGo : List String → List String → List (List String)
  | [], cur => if cur.isEmpty then [] else [cur.reverse]
  | a :: rest, cur =>
    match cur with
    | [] => splitRunsDollarGo rest [a]
    | b :: _ =>
      if (a == "$") == (b == "$") then splitRunsDollarGo rest (a :: cur)
      else cur.reverse :: splitRunsDollarGo rest [a]

/-- The maximal runs of separator / non-separator lines of the file. -/
def splitRunsDollar (lines : List String) : List (List String) :=
  splitRunsDollarGo lines []

/-- The data sections of a temperature file: the runs whose first line is
not the separator (`if section[0] != '$'`). -/
def tempDataSections (lines : List String) : List (List String) :=
  (splitRunsDollar lines).filter (fun g => g.headD "" != "$")

/-- Parse every data section, pairing section `i` with the `i`-th supplied
numeric table; the first exception aborts the whole read. -/
def parseTempSections : List (List String) → List (List (List ℚ)) →
    Except String (List TempDS)
  | [], _ => Except.ok []
  | s :: ss, ts =>
    bindE (parseTempSection s (ts.headD [])) fun d =>
    bindE (parseTempSections ss ts.tail) fun ds =>
    Except.ok (d :: ds)

/-- Embedding of `read_psl_wind_profiler_temperature` (`noaapsl.py` lines
159-195): drop the first raw line, split the rest into `$`-separated
sections, parse every data section, and concatenate along time
(`xr.concat` raising on an empty dataset list).  `tables` supplies, per data
section, the numeric rows pandas reads for it. -/
def read_psl_wind_profiler_temperature (rawLines : List String)
    (tables : List (List (List ℚ))) : Except String (List TempDS) :=
  bindE (parseTempSections (tempDataSections (rawLines.drop 1)) tables) fun ds =>
  if ds.isEmpty then Except.error "must supply at least one object to concatenate"
  else Except.ok ds

/-! ## Concrete fixtures used to evaluate the parsers -/

/-- A minimal single-block wind-profiler file: the marker line `"CTD"` occurs
at line indices 0 and 12, so the block loop parses exactly one block (mode
100, one numeric row `2.0  7.0` under columns `HT  SPD`). -/
def wpSingleBlockFixture : List String :=
  ["CTD", "aa", "bb", "21 1 2 3 4 5 0", "cc", "dd", "ee", "M 100", "ff",
   "HT  SPD", "2.0  7.0", "gg", "CTD"]

/-- A two-block wind-profiler file both of whose parsed blocks classify as
low mode (marker at line indices 0, 12 and 24). -/
def wpLowOnlyFixture : List String :=
  ["CTD", "aa", "bb", "21 1 1 0 0 0 0", "cc", "dd", "ee", "M 100", "ff",
   "HT  SPD", "1.0  2.0", "gg", "CTD", "hh", "ii", "21 1 1 1 0 0 0", "jj",
   "kk", "ll", "M 200", "mm", "nn", "3.0  4.0", "oo", "CTD"]

/-- A temperature file whose single data section has a malformed date line
(non-numeric token `"xx"` where the year is expected). -/
def tempBadDateFixture : List String :=
  ["hdr", "SITE", "l1", "l2", "xx 9 21 12 0 0 0"]

/-- A well-formed temperature section (site, data type and revision,
coordinates, date, consensus line, unused line, integration line, gate
line declaring 10 gates, beam line). -/
def tempGoodSection : List String :=
  ["CTD", "WINDTEMP abc 1.1", "40.0  -105.0  1600.0", "21 9 1 12 30 0 7",
   "60  5  30", "x", "100 50 700 104", "20.0 3.7 10.0 105.0", "90.0 66.0"]

/-! ## Supporting lemmas -/

theorem bindE_eq_error_of_right {α β : Type} {x : Except String α}
    {f : α → Except String β} (h : ∀ a, x = Except.ok a → ∃ e, f a = Except.error e) :
    ∃ e, bindE x f = Except.error e := by
  cases x with
  | error e => exact ⟨e, rfl⟩
  | ok a =>
    obtain ⟨e, he⟩ := h a rfl
    exact ⟨e, by simpa [bindE] using he⟩

theorem bindE_eq_error_of_left {α β : Type} {x : Except String α}
    {f : α → Except String β} (h : ∃ e, x = Except.error e) :
    ∃ e, bindE x f = Except.error e := by
  obtain ⟨e, he⟩ := h
  exact ⟨e, by simp [bindE, he]⟩

theorem bindE_ok_elim {α β : Type} {x : Except String α} {f : α → Except String β}
    {b : β} (h : bindE x f = Except.ok b) : ∃ a, x = Except.ok a ∧ f a = Except.ok b := by
  cases x with
  | error e => simp [bindE] at h
  | ok a => exact ⟨a, rfl, by simpa [bindE] using h⟩

theorem mapME_ok_length {α β : Type} {f : α → Except String β} :
    ∀ {l : List α} {l2 : List β}, mapME f l = Except.ok l2 → l2.length = l.length := by
  intro l
  induction l with
  | nil => intro l2 h; simp [mapME] at h; simp [← h]
  | cons a as ih =>
    intro l2 h
    simp only [mapME] at h
    cases hfa : f a with
    | error e => rw [hfa] at h; exact absurd h (by simp)
    | ok b =>
      rw [hfa] at h
      cases hrest : mapME f as with
      | error e => rw [hrest] at h; exact absurd h (by simp)
      | ok bs =>
        rw [hrest] at h
        cases h
        simp [ih hrest]

theorem lineAt_ok_getD {lines : List String} {i : ℕ} {s : String}
    (h : lineAt lines i = Except.ok s) : lines.getD i "" = s := by
  unfold lineAt at h
  cases hg : lines.get? i with
  | none => rw [hg] at h; exact absurd h (by simp)
  | some t => rw [hg] at h; cases h; simp [List.getD_eq_getElem?_getD, ← List.get?_eq_getElem?, hg]

/-! ## C1: radar scan termination policy -/

/-- C1 counterexample.  The claim says the per-file scan terminates on the
second consecutive exception, with the strike counter reset by every
successful parse.  On the attempt sequence exception, exception, success the
code keeps scanning (its `error_ct > 1` test is false at the second
exception because the counter is incremented only after the test) and
returns the third attempt's record, while the policy worded in the
specification would already have stopped the file scan and returned no
record. -/
theorem radar_scan_policy_counterexample :
    radarScan [RadarAttempt.err false, RadarAttempt.err false,
               RadarAttempt.ok (RadarRecord.mk [] [] [] [] [] [])] =
      [RadarRecord.mk [] [] [] [] [] []] ∧
    radarScanSpecified [RadarAttempt.err false, RadarAttempt.err false,
               RadarAttempt.ok (RadarRecord.mk [] [] [] [] [] [])] = [] := by
  exact ⟨rfl, rfl⟩

/-- C1 (amended): per-record exceptions never reach the caller — the scan is
a total function of the attempt outcomes — and a file whose attempts are K
successful record parses followed by one failing attempt (a truncated
trailing record, whether or not it is classified as an empty read) yields
exactly those K records.  The termination rule of the code is cumulative:
the exception counter is never reset on success and a non-empty-read
exception only terminates the scan when two exceptions were already
counted. -/
theorem radar_scan_trailing_failure (rs : List RadarRecord) (f : Bool) :
    radarScan (rs.map RadarAttempt.ok ++ [RadarAttempt.err f]) = rs := by
  show radarScanGo (rs.map RadarAttempt.ok ++ [RadarAttempt.err f]) 0 = rs
  induction rs with
  | nil => cases f <;> simp [radarScanGo]
  | cons r rest ih => simpa [radarScanGo] using ih

/-! ## C4: radar timestamp arithmetic -/

/-- C4.  The radar record timestamp for two-digit year 21, day-of-year 1,
time 00:00:00 is one whole day after the value the specification assigns
(January 1 of 2021 plus day-of-year minus one days): the code adds
`timedelta(days=doy)` without subtracting one, so day-of-year 1 is decoded
as 2021-01-02 instead of 2021-01-01. -/
theorem radar_time_day_of_year_off_by_one :
    radar_record_time "21" "1" "0" "0" "0" =
      some (radar_time_specified 21 1 0 0 0 + 86400) := by decide

/-! ## C6: radar header offset formula -/

/-- C6 counterexample.  For record 1 of a file whose previous record declared
10 gates the code computes `index2 = 1*10 + 10 + 2*1 + 4 = 26`, but the
formula stated in the claim gives `1*(10-1) + 2*1 + 4 = 15`. -/
theorem radar_offset_formula_counterexample :
    radar_index2 1 10 = 26 ∧ radar_offset_specified 1 10 = 15 ∧
    radar_index2 1 10 ≠ radar_offset_specified 1 10 := by decide

/-- C6 (amended): the offset actually computed for record N from the
previous record's gate count is `N*gates + gates + 2*N + 4`; whenever both N
and the gate count are at least one, it exceeds the claimed formula
`N*(gates-1) + 2*N + 4` by `gates + N` lines. -/
theorem radar_offset_formula_exceeds_specified (n g : ℕ) (hg : 1 ≤ g) :
    radar_index2 n g = radar_offset_specified n g + g + n := by
  cases g with
  | zero => omega
  | succ g2 =>
    unfold radar_index2 radar_index1 radar_offset_specified
    simp only [Nat.succ_sub_one]
    ring

theorem radar_offset_formula_exceeds_specified_witness :
    1 ≤ 10 ∧ radar_index2 1 10 = radar_offset_specified 1 10 + 10 + 1 :=
  ⟨by decide, radar_offset_formula_exceeds_specified 1 10 (by decide)⟩

/-! ## C7: radar file-level header -/

/-- C7.  On the file-level header tokens of a radar file the code stores the
latitude and longitude fields verbatim as strings — the `d == 'lat'`
comparison tests the token text against the *name* of the field, which a
numeric token never equals, so the division by 100 is never applied.  Had a
token literally been `"lat"`, the branch would raise `ValueError` trying to
float it, as the second conjunct shows. -/
theorem radar_header1_latlon_never_scaled :
    parse_radar_header1 "CTD  4012  -10512  1600  2835" =
      Except.ok [PslVal.str "CTD", PslVal.str "4012", PslVal.str "-10512",
                 PslVal.str "1600", PslVal.str "2835"] ∧
    parse_radar_header1 "lat" = Except.error "could not convert string to float" := by
  exact ⟨by decide, by decide⟩

/-! ## C3: sentinel substitution -/

/-- C3 counterexample.  The radar parser applies no sentinel substitution:
a successfully parsed record whose `snr` channel holds the literal
`999999.0` is appended to the output unchanged, so the sentinel appears
verbatim in the returned dataset's `snr` field. -/
theorem radar_sentinel_passthrough_counterexample :
    radarScan [RadarAttempt.ok (RadarRecord.mk [] [999999] [] [] [] [])] =
      [RadarRecord.mk [] [999999] [] [] [] []] ∧
    (999999 : ℚ) ∈ ((radarScan [RadarAttempt.ok (RadarRecord.mk [] [999999] [] [] [] [])]).map
        RadarRecord.snr).flatten := by
  exact ⟨rfl, by decide⟩

/-! ## C2: duplicate beam-column disambiguation -/

theorem renameStep_of_none {l : List String} {i : ℕ} (h : l.get? i = none) :
    renameStep l i = l := by
  simp only [renameStep, h]

theorem renameStep_of_not_beam {l : List String} {i : ℕ} {c : String}
    (h : l.get? i = some c) (hc : c ∉ beam_vars) : renameStep l i = l := by
  simp only [renameStep, h]
  exact if_neg hc

theorem renameStep_gt2 {l : List String} {i : ℕ} {c : String}
    (h : l.get? i = some c) (hc : c ∈ beam_vars) (h2 : 2 < l.count c) :
    renameStep l i = l.set i (c ++ "1") := by
  simp only [renameStep, h]
  rw [if_pos hc, if_pos h2]

theorem renameStep_eq2 {l : List String} {i : ℕ} {c : String}
    (h : l.get? i = some c) (hc : c ∈ beam_vars) (h2 : l.count c = 2) :
    renameStep l i = l.set i (c ++ "2") := by
  simp only [renameStep, h]
  rw [if_pos hc, if_neg (by omega), if_pos (by omega)]

theorem renameStep_eq1 {l : List String} {i : ℕ} {c : String}
    (h : l.get? i = some c) (hc : c ∈ beam_vars) (h1 : l.count c = 1) :
    renameStep l i = l.set i (c ++ "3") := by
  simp only [renameStep, h]
  rw [if_pos hc, if_neg (by omega), if_neg (by omega), if_pos (by omega)]

theorem renameStep_count0 {l : List String} {i : ℕ} {c : String}
    (h : l.get? i = some c) (hc : c ∈ beam_vars) (h0 : l.count c = 0) :
    renameStep l i = l := by
  simp only [renameStep, h]
  rw [if_pos hc, if_neg (by omega), if_neg (by omega), if_neg (by omega)]

theorem get?_set_self_of_get? {l : List String} {i : ℕ} {c a : String}
    (h : l.get? i = some c) : (l.set i a).get? i = some a := by
  rw [List.get?_set_eq, h]
  rfl

theorem renameStep_length (l : List String) (i : ℕ) :
    (renameStep l i).length = l.length := by
  cases hgi : l.get? i with
  | none => rw [renameStep_of_none hgi]
  | some c =>
    by_cases hc : c ∈ beam_vars
    · rcases Nat.lt_trichotomy 2 (l.count c) with h2 | h2 | h2
      · rw [renameStep_gt2 hgi hc h2, List.length_set]
      · rw [renameStep_eq2 hgi hc h2.symm, List.length_set]
      · rcases (by omega : l.count c = 0 ∨ l.count c = 1) with h0 | h1
        · rw [renameStep_count0 hgi hc h0]
        · rw [renameStep_eq1 hgi hc h1, List.length_set]
    · rw [renameStep_of_not_beam hgi hc]

theorem renameGo_length : ∀ (fuel i : ℕ) (l : List String),
    (renameGo fuel i l).length = l.length := by
  intro fuel
  induction fuel with
  | zero => intro i l; rfl
  | succ fuel ih =>
    intro i l
    show (renameGo fuel (i + 1) (renameStep l i)).length = l.length
    rw [ih (i + 1) (renameStep l i), renameStep_length]

theorem renameStep_get?_ne (l : List String) (i j : ℕ) (hij : j ≠ i) :
    (renameStep l i).get? j = l.get? j := by
  cases hgi : l.get? i with
  | none => rw [renameStep_of_none hgi]
  | some c =>
    by_cases hc : c ∈ beam_vars
    · rcases Nat.lt_trichotomy 2 (l.count c) with h2 | h2 | h2
      · rw [renameStep_gt2 hgi hc h2]
        exact List.get?_set_ne _ _ (Ne.symm hij)
      · rw [renameStep_eq2 hgi hc h2.symm]
        exact List.get?_set_ne _ _ (Ne.symm hij)
      · rcases (by omega : l.count c = 0 ∨ l.count c = 1) with h0 | h1
        · rw [renameStep_count0 hgi hc h0]
        · rw [renameStep_eq1 hgi hc h1]
          exact List.get?_set_ne _ _ (Ne.symm hij)
    · rw [renameStep_of_not_beam hgi hc]

theorem renameGo_get?_lt : ∀ (fuel i : ℕ) (l : List String) (j : ℕ), j < i →
    (renameGo fuel i l).get? j = l.get? j := by
  intro fuel
  induction fuel with
  | zero => intro i l j _; rfl
  | succ fuel ih =>
    intro i l j hj
    show (renameGo fuel (i + 1) (renameStep l i)).get? j = l.get? j
    rw [ih (i + 1) (renameStep l i) j (by omega), renameStep_get?_ne l i j (by omega)]

theorem renameStep_drop (l : List String) (i k : ℕ) (hik : i < k) :
    (renameStep l i).drop k = l.drop k := by
  apply List.ext_get?
  intro n
  rw [List.get?_drop, List.get?_drop]
  exact renameStep_get?_ne l i (k + n) (by omega)

theorem count_take_eq_zero {l : List String} {i : ℕ} {c : String}
    (h : ∀ j, j < i → l.get? j ≠ some c) : (l.take i).count c = 0 := by
  rw [List.count_eq_zero]
  intro hmem
  obtain ⟨n, hn⟩ := List.mem_iff_get?.mp hmem
  by_cases hni : n < i
  · exact h n hni (by rwa [List.get?_take hni] at hn)
  · have hl2 : (l.take i).length ≤ i := by
      rw [List.length_take]
      exact Nat.min_le_left _ _
    obtain ⟨hlt, _⟩ := List.get?_eq_some.mp hn
    omega

theorem count_eq_count_drop {l : List String} {i : ℕ} {c : String}
    (h : ∀ j, j < i → l.get? j ≠ some c) : l.count c = (l.drop i).count c := by
  conv_lhs => rw [← List.take_append_drop i l]
  rw [List.count_append, count_take_eq_zero h]
  omega

theorem beam_append_digit_not_mem :
    ∀ c ∈ beam_vars, ∀ d ∈ ["1", "2", "3"], (c ++ d) ∉ beam_vars := by decide

theorem renameGo_get?_ge :
    ∀ (fuel : ℕ) (l : List String) (i : ℕ), l.length ≤ i + fuel →
      (∀ j, j < i → ∀ c, c ∈ beam_vars → l.get? j ≠ some c) →
      ∀ k, i ≤ k →
      (renameGo fuel i l).get? k =
        (l.get? k).map (fun c =>
          if c ∈ beam_vars then c ++ suffixFor ((l.drop k).count c) else c) := by
  intro fuel
  induction fuel with
  | zero =>
    intro l i hlen hpre k hik
    have hnone : l.get? k = none := List.get?_eq_none.mpr (by omega)
    show l.get? k = _
    rw [hnone]
    rfl
  | succ fuel ih =>
    intro l i hlen hpre k hik
    show (renameGo fuel (i + 1) (renameStep l i)).get? k = _
    rcases Nat.eq_or_lt_of_le hik with hik2 | hik2
    · subst hik2
      rw [renameGo_get?_lt fuel (i + 1) (renameStep l i) i (by omega)]
      cases hgk : l.get? i with
      | none =>
        rw [renameStep_of_none hgk, hgk]
        rfl
      | some c =>
        by_cases hc : c ∈ beam_vars
        · have hcd : ∀ j, j < i → l.get? j ≠ some c := fun j hj => hpre j hj c hc
          have hcnt : (l.drop i).count c = l.count c := (count_eq_count_drop hcd).symm
          have hpos : 0 < l.count c := List.count_pos_iff.mpr (List.get?_mem hgk)
          rcases Nat.lt_trichotomy 2 (l.count c) with h2 | h2 | h2
          · rw [renameStep_gt2 hgk hc h2, get?_set_self_of_get? hgk]
            show some (c ++ "1") = some (if c ∈ beam_vars then
              c ++ suffixFor ((l.drop i).count c) else c)
            rw [if_pos hc, hcnt]
            unfold suffixFor
            rw [if_pos h2]
          · rw [renameStep_eq2 hgk hc h2.symm, get?_set_self_of_get? hgk]
            show some (c ++ "2") = some (if c ∈ beam_vars then
              c ++ suffixFor ((l.drop i).count c) else c)
            rw [if_pos hc, hcnt, ← h2]
            rfl
          · rcases (by omega : l.count c = 1) with h1
            rw [renameStep_eq1 hgk hc h1, get?_set_self_of_get? hgk]
            show some (c ++ "3") = some (if c ∈ beam_vars then
              c ++ suffixFor ((l.drop i).count c) else c)
            rw [if_pos hc, hcnt, h1]
            rfl
        · rw [renameStep_of_not_beam hgk hc, hgk]
          show some c = some (if c ∈ beam_vars then
            c ++ suffixFor ((l.drop i).count c) else c)
          rw [if_neg hc]
    · have hlen2 : (renameStep l i).length ≤ (i + 1) + fuel := by
        rw [renameStep_length]
        omega
      have hpre2 : ∀ j, j < i + 1 → ∀ c, c ∈ beam_vars →
          (renameStep l i).get? j ≠ some c := by
        intro j hj c hcbv
        rcases Nat.eq_or_lt_of_le (Nat.le_of_lt_succ hj) with hji | hji
        · subst hji
          cases hgj : l.get? j with
          | none =>
            rw [renameStep_of_none hgj, hgj]
            exact fun hco => Option.noConfusion hco
          | some c0 =>
            by_cases hc0 : c0 ∈ beam_vars
            · have hpos : 0 < l.count c0 := List.count_pos_iff.mpr (List.get?_mem hgj)
              rcases Nat.lt_trichotomy 2 (l.count c0) with h2 | h2 | h2
              · rw [renameStep_gt2 hgj hc0 h2, get?_set_self_of_get? hgj]
                intro hco
                exact beam_append_digit_not_mem c0 hc0 "1" (by decide)
                  ((Option.some.inj hco) ▸ hcbv)
              · rw [renameStep_eq2 hgj hc0 h2.symm, get?_set_self_of_get? hgj]
                intro hco
                exact beam_append_digit_not_mem c0 hc0 "2" (by decide)
                  ((Option.some.inj hco) ▸ hcbv)
              · rcases (by omega : l.count c0 = 1) with h1
                rw [renameStep_eq1 hgj hc0 h1, get?_set_self_of_get? hgj]
                intro hco
                exact beam_append_digit_not_mem c0 hc0 "3" (by decide)
                  ((Option.some.inj hco) ▸ hcbv)
            · rw [renameStep_of_not_beam hgj hc0, hgj]
              intro hco
              exact hc0 ((Option.some.inj hco) ▸ hcbv)
        · rw [renameStep_get?_ne l i j (by omega)]
          exact hpre j hji c hcbv
      rw [ih (renameStep l i) (i + 1) hlen2 hpre2 k hik2,
          renameStep_get?_ne l i k (by omega), renameStep_drop l i k hik2]

/-- C2 counterexample.  On a header with three occurrences of `RAD` the code
assigns the suffixes in *forward* order — the first occurrence becomes
`RAD1`, the second `RAD2`, the third `RAD3` — not the reverse assignment
(1st → `"3"`, 2nd → `"2"`, 3rd-or-later → `"1"`) the claim states. -/
theorem rename_beam_cols_counterexample :
    renameBeamCols ["HT", "RAD", "RAD", "RAD"] = ["HT", "RAD1", "RAD2", "RAD3"] ∧
    renameBeamCols ["HT", "RAD", "RAD", "RAD"] ≠ ["HT", "RAD3", "RAD2", "RAD1"] := by
  decide

/-- C2 (amended): the loop renames every beam-indexed column by the number of
occurrences of its name from its own position onward: an occurrence followed
by two or more later occurrences is suffixed `"1"`, the second-to-last
occurrence `"2"`, the last occurrence `"3"` — a forward-order assignment
(because each renamed entry no longer matches the base name, the live count
seen by the loop equals the count over the remaining suffix).  A name
occurring at most three times therefore gets pairwise distinct suffixes. -/
theorem rename_beam_cols_forward_order (l : List String) :
    renameBeamCols l = renameForward l := by
  apply List.ext_get?
  intro k
  show (renameGo l.length 0 l).get? k = (renameForward l).get? k
  rw [renameGo_get?_ge l.length l 0 (by omega)
      (fun j hj _ _ => absurd hj (Nat.not_lt_zero j)) k (Nat.zero_le k)]
  unfold renameForward
  by_cases hk : k < l.length
  · cases hgk : l.get? k with
    | none => exact absurd (List.get?_eq_none.mp hgk) (by omega)
    | some c =>
      rw [List.get?_map, List.get?_range hk]
      have hgd : l.getD k "" = c := by
        rw [List.getD_eq_getElem?_getD, ← List.get?_eq_getElem?, hgk]
        rfl
      show some (if c ∈ beam_vars then c ++ suffixFor ((l.drop k).count c) else c) =
        some (if l.getD k "" ∈ beam_vars then
          l.getD k "" ++ suffixFor ((l.drop k).count (l.getD k "")) else l.getD k "")
      rw [hgd]
  · have h1 : l.get? k = none := List.get?_eq_none.mpr (by omega)
    have h2 : ((List.range l.length).map (fun i =>
        let c := l.getD i ""
        if c ∈ beam_vars then c ++ suffixFor ((l.drop i).count c) else c)).get? k = none := by
      rw [List.get?_eq_none]
      simp only [List.length_map, List.length_range]
      omega
    rw [h1, h2]
    rfl

/-! ## C5: the block loop drops the last marker's block -/

theorem wpIndexPairs_eq_zip : ∀ (idx : List ℕ), wpIndexPairs idx = idx.zip idx.tail := by
  intro idx
  induction idx with
  | nil => rfl
  | cons a t ih =>
    cases t with
    | nil => rfl
    | cons b t2 =>
      show wpIndexPairs (a :: b :: t2) = (a, b) :: (b :: t2).zip t2
      unfold wpIndexPairs
      have hlen : (a :: b :: t2).length - 1 = t2.length + 1 := by
        simp [List.length_cons]
      rw [hlen, List.range_succ_eq_map, List.map_cons, List.map_map]
      have hhead : ((a :: b :: t2).getD 0 0, (a :: b :: t2).getD (0 + 1) 0) = (a, b) := rfl
      rw [hhead]
      have htail : (List.range t2.length).map
          ((fun i => ((a :: b :: t2).getD i 0, (a :: b :: t2).getD (i + 1) 0)) ∘ Nat.succ) =
          (List.range ((b :: t2).length - 1)).map
          (fun i => ((b :: t2).getD i 0, (b :: t2).getD (i + 1) 0)) := by
        have hlen2 : (b :: t2).length - 1 = t2.length := by simp
        rw [hlen2]
        apply List.map_congr_left
        intro i _
        rfl
      rw [htail]
      have ih2 : (List.range ((b :: t2).length - 1)).map
          (fun i => ((b :: t2).getD i 0, (b :: t2).getD (i + 1) 0)) = (b :: t2).zip t2 := ih
      rw [ih2]

theorem zip_tail_map_fst : ∀ (idx : List ℕ), (idx.zip idx.tail).map Prod.fst = idx.dropLast := by
  intro idx
  induction idx with
  | nil => rfl
  | cons a t ih =>
    cases t with
    | nil => rfl
    | cons b t2 =>
      show ((a, b) :: (b :: t2).zip t2).map Prod.fst = a :: (b :: t2).dropLast
      rw [List.map_cons]
      have ih2 : ((b :: t2).zip t2).map Prod.fst = (b :: t2).dropLast := ih
      rw [ih2]

/-- C5.  The wind-profiler block loop iterates exactly the
`len(markers) - 1` consecutive index pairs: the pair list equals
`markers.zip markers.tail`, it has `markers.length - 1` entries, and the
block start positions are exactly the markers with the last one dropped —
the final block recognized by the marker index is never parsed, hence
excluded from both returned datasets. -/
theorem wp_block_loop_drops_last (idx : List ℕ) :
    wpIndexPairs idx = idx.zip idx.tail ∧
    (wpIndexPairs idx).length = idx.length - 1 ∧
    (wpIndexPairs idx).map Prod.fst = idx.dropLast := by
  refine ⟨wpIndexPairs_eq_zip idx, ?_, ?_⟩
  · rw [wpIndexPairs_eq_zip idx, List.length_zip, List.length_tail]
    omega
  · rw [wpIndexPairs_eq_zip idx]
    exact zip_tail_map_fst idx

/-! ## C3 (amended): where the sentinel substitution applies -/

theorem replace999999_ne_sentinel (q : ℚ) : replace999999 q ≠ some 999999 := by
  unfold replace999999
  by_cases hq : q = 999999
  · rw [if_pos hq]
    exact fun h => Option.noConfusion h
  · rw [if_neg hq]
    intro h
    exact hq (Option.some.inj h)

theorem sanitize_no_sentinel {t : List (List ℚ)} {row : List (Option ℚ)}
    (hrow : row ∈ sanitizeTable t) : some (999999 : ℚ) ∉ row := by
  unfold sanitizeTable at hrow
  obtain ⟨r, _, rfl⟩ := List.mem_map.mp hrow
  intro hmem
  obtain ⟨q, _, hq⟩ := List.mem_map.mp hmem
  exact replace999999_ne_sentinel q hq

/-- C3 (amended): the sentinel substitution `replace(999999.0, NaN)` is
applied by the wind-profiler parser and the temperature parser only — in
every block or section they successfully return, no numeric cell equals the
sentinel.  The parsivel and radar parsers apply no substitution (see the
counterexample, where the radar scan returns the sentinel verbatim). -/
theorem sentinel_never_in_wp_temp_output :
    (∀ lines cols start nxt b row, parseWpBlock lines cols start nxt = Except.ok b →
      row ∈ b.cells → some (999999 : ℚ) ∉ row) ∧
    (∀ secLines table ds row, parseTempSection secLines table = Except.ok ds →
      row ∈ ds.table → some (999999 : ℚ) ∉ row) := by
  constructor
  · intro lines cols start nxt b row h hrow
    unfold parseWpBlock at h
    obtain ⟨dline, _, h⟩ := bindE_ok_elim h
    obtain ⟨time, _, h⟩ := bindE_ok_elim h
    obtain ⟨mline, _, h⟩ := bindE_ok_elim h
    obtain ⟨mode, _, h⟩ := bindE_ok_elim h
    obtain ⟨t0, _, h⟩ := bindE_ok_elim h
    obtain ⟨t, _, h⟩ := bindE_ok_elim h
    by_cases hht : cols.contains "HT"
    · rw [if_pos hht] at h
      cases h
      exact sanitize_no_sentinel hrow
    · rw [if_neg hht] at h
      exact absurd h (by simp)
  · intro secLines table ds row h hrow
    unfold parseTempSection at h
    obtain ⟨l0, _, h⟩ := bindE_ok_elim h
    obtain ⟨l1, _, h⟩ := bindE_ok_elim h
    obtain ⟨dtv, _, h⟩ := bindE_ok_elim h
    obtain ⟨l2, _, h⟩ := bindE_ok_elim h
    obtain ⟨lla, _, h⟩ := bindE_ok_elim h
    obtain ⟨l3, _, h⟩ := bindE_ok_elim h
    obtain ⟨time, _, h⟩ := bindE_ok_elim h
    obtain ⟨l4, _, h⟩ := bindE_ok_elim h
    obtain ⟨cbr, _, h⟩ := bindE_ok_elim h
    obtain ⟨l6, _, h⟩ := bindE_ok_elim h
    obtain ⟨cips, _, h⟩ := bindE_ok_elim h
    obtain ⟨l7, _, h⟩ := bindE_ok_elim h
    obtain ⟨fdgs, _, h⟩ := bindE_ok_elim h
    obtain ⟨l8, _, h⟩ := bindE_ok_elim h
    obtain ⟨azel, _, h⟩ := bindE_ok_elim h
    cases h
    exact sanitize_no_sentinel hrow

theorem sentinel_never_in_wp_temp_output_witness :
    some (999999 : ℚ) ∉ [some (2 : ℚ), some 7] ∧
    some (999999 : ℚ) ∉ [some (2 : ℚ), some 5] :=
  ⟨sentinel_never_in_wp_temp_output.1 wpSingleBlockFixture ["HT", "SPD"] 0 12
      ⟨⟨2021, 1, 2, 3, 4, 5⟩, 100, [[some 2, some 7]], [some 2]⟩
      [some 2, some 7] (by decide) (by decide),
   sentinel_never_in_wp_temp_output.2 tempGoodSection
      [[mkRat 3 2, 999999], [2, 5]]
      ⟨"CTD", "WINDTEMP", "1.1", 40, -105, 1600, ⟨2021, 9, 1, 12, 30, 0⟩,
       60, 5, 30, 10, [[some (mkRat 3 2), none], [some 2, some 5]]⟩
      [some 2, some 5] (by decide) (by decide)⟩

/-! ## C8: single-block wind-profiler fixtures -/

theorem mkWpFrame_ok {cols : List String} {t0 t : List (List ℚ)}
    (h : mkWpFrame cols t0 = Except.ok t) : t = t0 := by
  unfold mkWpFrame at h
  split at h
  · cases h
    rfl
  · exact absurd h (by simp)

theorem parseWpTable_ok_length {rows : List String} {t : List (List ℚ)}
    (h : parseWpTable rows = Except.ok t) : t.length = rows.length := by
  unfold parseWpTable at h
  obtain ⟨t1, h1, h2⟩ := bindE_ok_elim h
  split at h2
  · cases h2
    exact mapME_ok_length h1
  · exact absurd h2 (by simp)

/-- C8 counterexample.  On a single-block fixture `read_psl_wind_profiler`
does not return a dataset at all: the only parsed block lands in one mode
list, the other mode list stays empty, and `xr.concat([], 'time')` raises,
so the claim's description of the returned output is false — nothing is
returned. -/
theorem wp_single_block_read_raises :
    read_psl_wind_profiler wpSingleBlockFixture =
      Except.error "must supply at least one object to concatenate" := by
  decide

/-- C8 (amended): a successfully parsed block with N numeric table rows
carries exactly N sanitized rows and N height values, its height coordinate
is the table's `HT` column (after sentinel substitution), and concatenating
it alone yields a dataset with exactly one time value; but
`read_psl_wind_profiler` itself raises on a single-block fixture because the
other mode's list is empty (see the counterexample). -/
theorem wp_block_table_shape (lines cols : List String) (start nxt : ℕ) (b : WpBlock)
    (h : parseWpBlock lines cols start nxt = Except.ok b) :
    b.cells.length = (wpTableLines lines start nxt).length ∧
    b.heights.length = (wpTableLines lines start nxt).length ∧
    b.heights = htColumn cols b.cells ∧
    wpConcat [b] = Except.ok { times := [b.time], heights := b.heights,
                               tables := [b.cells] } := by
  unfold parseWpBlock at h
  obtain ⟨dline, _, h⟩ := bindE_ok_elim h
  obtain ⟨time, _, h⟩ := bindE_ok_elim h
  obtain ⟨mline, _, h⟩ := bindE_ok_elim h
  obtain ⟨mode, _, h⟩ := bindE_ok_elim h
  obtain ⟨t0, htab, h⟩ := bindE_ok_elim h
  obtain ⟨t, hframe, h⟩ := bindE_ok_elim h
  by_cases hht : cols.contains "HT"
  · rw [if_pos hht] at h
    cases h
    have ht0 : t = t0 := mkWpFrame_ok hframe
    have hlen : t.length = (wpTableLines lines start nxt).length := by
      rw [ht0]
      exact parseWpTable_ok_length htab
    refine ⟨?_, ?_, rfl, rfl⟩
    · show (sanitizeTable t).length = _
      rw [← hlen]
      exact List.length_map _ _
    · show (htColumn cols (sanitizeTable t)).length = _
      rw [← hlen]
      unfold htColumn sanitizeTable
      rw [List.length_map, List.length_map]
  · rw [if_neg hht] at h
    exact absurd h (by simp)

theorem wp_block_table_shape_witness :
    (⟨⟨2021, 1, 2, 3, 4, 5⟩, 100, [[some 2, some 7]], [some 2]⟩ : WpBlock).cells.length =
      (wpTableLines wpSingleBlockFixture 0 12).length ∧
    (⟨⟨2021, 1, 2, 3, 4, 5⟩, 100, [[some 2, some 7]], [some 2]⟩ : WpBlock).heights.length =
      (wpTableLines wpSingleBlockFixture 0 12).length ∧
    (⟨⟨2021, 1, 2, 3, 4, 5⟩, 100, [[some 2, some 7]], [some 2]⟩ : WpBlock).heights =
      htColumn ["HT", "SPD"]
        (⟨⟨2021, 1, 2, 3, 4, 5⟩, 100, [[some 2, some 7]], [some 2]⟩ : WpBlock).cells ∧
    wpConcat [⟨⟨2021, 1, 2, 3, 4, 5⟩, 100, [[some 2, some 7]], [some 2]⟩] =
      Except.ok { times := [(⟨2021, 1, 2, 3, 4, 5⟩ : DateTime)], heights := [some 2],
                  tables := [[[some 2, some 7]]] } :=
  wp_block_table_shape wpSingleBlockFixture ["HT", "SPD"] 0 12
    ⟨⟨2021, 1, 2, 3, 4, 5⟩, 100, [[some 2, some 7]], [some 2]⟩ (by decide)

/-! ## C9: temperature fail-fast on malformed date lines -/

theorem parse_date_line_error_of_bad {s : String} (h : dateLineBad s = true) :
    ∃ e, parse_date_line s = Except.error e := by
  unfold parse_date_line
  apply bindE_eq_error_of_left
  unfold dateLineBad at h
  unfold castIntsExactly
  cases hm : mapMO pyInt (filter_list (splitChar ' ' s)) with
  | none => exact ⟨_, rfl⟩
  | some ns =>
    rw [hm] at h
    simp at h
    show ∃ e, (if ns.length = 7 then Except.ok ns
      else Except.error "cannot unpack") = Except.error e
    rw [if_neg h]
    exact ⟨_, rfl⟩

theorem parseTempSection_error_of_bad (secLines : List String)
    (h : dateLineBad (secLines.getD 3 "") = true) :
    ∀ table, ∃ e, parseTempSection secLines table = Except.error e := by
  intro table
  unfold parseTempSection
  apply bindE_eq_error_of_right
  intro l0 h0
  apply bindE_eq_error_of_right
  intro l1 h1
  apply bindE_eq_error_of_right
  intro dtv h2
  apply bindE_eq_error_of_right
  intro l2 h3
  apply bindE_eq_error_of_right
  intro lla h4
  apply bindE_eq_error_of_right
  intro l3 h5
  apply bindE_eq_error_of_left
  have hl3 : secLines.getD 3 "" = l3 := lineAt_ok_getD h5
  exact parse_date_line_error_of_bad (hl3 ▸ h)

theorem parseTempSections_error_of_mem :
    ∀ (secs : List (List String)) (ts : List (List (List ℚ))) (sec : List String),
      sec ∈ secs → (∀ table, ∃ e, parseTempSection sec table = Except.error e) →
      ∃ e, parseTempSections secs ts = Except.error e := by
  intro secs
  induction secs with
  | nil =>
    intro ts sec hmem _
    exact absurd hmem (List.not_mem_nil sec)
  | cons s ss ih =>
    intro ts sec hmem herr
    unfold parseTempSections
    rcases List.mem_cons.mp hmem with rfl | hmem2
    · exact bindE_eq_error_of_left (herr (ts.headD []))
    · apply bindE_eq_error_of_right
      intro d hd
      exact bindE_eq_error_of_left (ih ts.tail sec hmem2 herr)

/-- C9.  If any data section of a temperature file has a malformed date line
(a non-integer token or a token count other than seven where year, month,
day, hour, minute, second and UTC offset are expected), the whole read
returns an error and no dataset — in particular no partial dataset from the
sections preceding the malformed one. -/
theorem temp_malformed_date_fail_fast (rawLines : List String)
    (tables : List (List (List ℚ))) (sec : List String)
    (hmem : sec ∈ tempDataSections (rawLines.drop 1))
    (hbad : dateLineBad (sec.getD 3 "") = true) :
    ∃ e, read_psl_wind_profiler_temperature rawLines tables = Except.error e := by
  unfold read_psl_wind_profiler_temperature
  exact bindE_eq_error_of_left
    (parseTempSections_error_of_mem _ tables sec hmem (parseTempSection_error_of_bad sec hbad))

theorem temp_malformed_date_fail_fast_witness :
    ∃ e, read_psl_wind_profiler_temperature tempBadDateFixture [] = Except.error e :=
  temp_malformed_date_fail_fast tempBadDateFixture [] ["SITE", "l1", "l2", "xx 9 21 12 0 0 0"]
    (by decide) (by decide)

/-! ## C10: both modes are required for the wind-profiler read to succeed -/

/-- C10.  `read_psl_wind_profiler` returns its documented pair only when the
parsed blocks contain at least one low-mode and at least one high-mode
block; whenever the retained blocks all fall in a single mode (or there are
none), the concatenation over the empty mode list raises and no dataset is
returned. -/
theorem wp_both_modes_required :
    (∀ lines r, read_psl_wind_profiler lines = Except.ok r →
      ∃ bs, wpParseBlocks lines = Except.ok bs ∧
        (∃ b ∈ bs, b.mode < 1000) ∧ (∃ b ∈ bs, ¬ b.mode < 1000)) ∧
    (∀ lines bs, wpParseBlocks lines = Except.ok bs →
      ((∀ b ∈ bs, b.mode < 1000) ∨ (∀ b ∈ bs, ¬ b.mode < 1000)) →
      ∃ e, read_psl_wind_profiler lines = Except.error e) := by
  constructor
  · intro lines r h
    unfold read_psl_wind_profiler at h
    obtain ⟨bs, hbs, h⟩ := bindE_ok_elim h
    obtain ⟨dsLow, hlow, h⟩ := bindE_ok_elim h
    obtain ⟨dsHi, hhi, h⟩ := bindE_ok_elim h
    refine ⟨bs, hbs, ?_, ?_⟩
    · rcases hfl : bs.filter (fun b => decide (b.mode < 1000)) with _ | ⟨b0, rest⟩
      · rw [hfl] at hlow
        exact absurd hlow (by simp [wpConcat])
      · have hb0 : b0 ∈ bs.filter (fun b => decide (b.mode < 1000)) := by
          rw [hfl]
          exact List.mem_cons_self b0 rest
        have hm := List.mem_filter.mp hb0
        exact ⟨b0, hm.1, by simpa using hm.2⟩
    · rcases hfh : bs.filter (fun b => !(decide (b.mode < 1000))) with _ | ⟨b0, rest⟩
      · rw [hfh] at hhi
        exact absurd hhi (by simp [wpConcat])
      · have hb0 : b0 ∈ bs.filter (fun b => !(decide (b.mode < 1000))) := by
          rw [hfh]
          exact List.mem_cons_self b0 rest
        have hm := List.mem_filter.mp hb0
        exact ⟨b0, hm.1, by simpa using hm.2⟩
  · intro lines bs hbs hmode
    unfold read_psl_wind_profiler
    rcases hmode with hall | hall
    · have hfe : bs.filter (fun b => !(decide (b.mode < 1000))) = [] := by
        rw [List.filter_eq_nil]
        intro b hb
        simp [hall b hb]
      apply bindE_eq_error_of_right
      intro bs2 hbs2
      rw [hbs] at hbs2
      cases hbs2
      apply bindE_eq_error_of_right
      intro dsLow _
      apply bindE_eq_error_of_left
      rw [hfe]
      exact ⟨_, rfl⟩
    · have hfe : bs.filter (fun b => decide (b.mode < 1000)) = [] := by
        rw [List.filter_eq_nil]
        intro b hb
        simp [hall b hb]
      apply bindE_eq_error_of_right
      intro bs2 hbs2
      rw [hbs] at hbs2
      cases hbs2
      apply bindE_eq_error_of_left
      rw [hfe]
      exact ⟨_, rfl⟩

theorem wp_both_modes_required_witness :
    ∃ e, read_psl_wind_profiler wpLowOnlyFixture = Except.error e :=
  wp_both_modes_required.2 wpLowOnlyFixture
    [⟨⟨2021, 1, 1, 0, 0, 0⟩, 100, [[some 1, some 2]], [some 1]⟩,
     ⟨⟨2021, 1, 1, 1, 0, 0⟩, 200, [[some 3, some 4]], [some 3]⟩]
    (by decide) (Or.inl (by decide))
